import Mathlib

/-!
# Transform construction of `main.cpp` (model, view, projection)

A shallow embedding of the four matrix builders of `src/main.cpp`:
`get_view_matrix`, `get_model_matrix`, `get_rotation`, `get_projection_matrix`,
and of the driver `main`.

## Modelling choices

* `float`/`double` values are modelled as elements of an ordered field `K`
  with exact arithmetic: rounding is not modelled, and neither are the
  non-finite values (infinities, NaN) of IEEE arithmetic.  A quotient whose
  divisor is zero has, in the field, the conventional value `0`; no theorem
  below relies on the value of such a quotient.
* The C math library functions `cos`, `sin`, `tan` and the square root used by
  Eigen are passed to the builders as arguments, so the definitions stay
  executable over any field (for instance `ℚ`).  The theorems instantiate them
  with `Real.cos`, `Real.sin`, `Real.tan` and `Real.sqrt`.
* `Eigen::Matrix4f` is `Matrix (Fin 4) (Fin 4) K`, indexed `(row, column)` as
  in the source; `Eigen::Matrix4f::Identity()` is `1`; an assignment
  `m(i,j) = v` is `setEntry m i j v`.
* Binary32 itself is modelled where its range and its subnormal numbers decide
  a result (`round32`, `normalize_f32`, `get_rotation_f32`, `add_f32`): these
  definitions show where a statement that holds in exact arithmetic fails on
  `float` values of extreme magnitude.
* `main` is a function of its argument vector and of the successive results of
  `cv::waitKey`; it yields the list of its visible events (draw, imwrite,
  imshow, frame-count line) and how the run ends.  The rasterizer and OpenCV
  are outside the repository: a drawn frame is recorded with the three
  transforms it was drawn under, not with its pixels.
-/

namespace CGBeginner

/-- The type `Eigen::Matrix4f`. -/
abbrev Matrix4 (K : Type) := Matrix (Fin 4) (Fin 4) K

/-- The type `Eigen::Vector3f`. -/
abbrev Vector3 (K : Type) := Fin 3 → K

/-- The type `Eigen::Vector4f`. -/
abbrev Vector4 (K : Type) := Fin 4 → K

/-- The constant of `constexpr double MY_PI = 3.1415926;`. -/
def MY_PI {K : Type} [Field K] : K := 3.1415926

/-- The assignment `m(i,j) = v` on a matrix: only the entry `(i,j)` changes. -/
def setEntry {K : Type} (m : Matrix4 K) (i j : Fin 4) (v : K) : Matrix4 K :=
  fun a b => if a = i ∧ b = j then v else m a b

/-- The homogeneous point `(p, 1)` of a 3-vector `p`. -/
def homogeneous {K : Type} [Field K] (p : Vector3 K) : Vector4 K :=
  ![p 0, p 1, p 2, 1]

/-- The function `get_view_matrix` (main.cpp, lines 9-20). -/
def get_view_matrix {K : Type} [Field K] (eye_pos : Vector3 K) : Matrix4 K :=
  let view : Matrix4 K := 1
  let translate : Matrix4 K :=
    !![1, 0, 0, -eye_pos 0;
       0, 1, 0, -eye_pos 1;
       0, 0, 1, -eye_pos 2;
       0, 0, 0, 1]
  let view := translate * view
  view

/-- The function `get_model_matrix` (main.cpp, lines 23-40). -/
def get_model_matrix {K : Type} [Field K] (cos sin : K → K) (rotation_angle : K) :
    Matrix4 K :=
  let model : Matrix4 K := 1
  let radian := rotation_angle * MY_PI / 180
  let model := setEntry model 0 0 (cos radian)
  let model := setEntry model 0 1 (-sin radian)
  let model := setEntry model 1 0 (sin radian)
  let model := setEntry model 1 1 (cos radian)
  model

/-- The squared Euclidean norm of a 3-vector (`squaredNorm()` of Eigen). -/
def squaredNorm {K : Type} [Field K] (v : Vector3 K) : K :=
  v 0 * v 0 + v 1 * v 1 + v 2 * v 2

/-- The in-place `normalize()` of Eigen (`Eigen/src/Core/Dot.h`, Eigen 3.3 and
later): with `z = squaredNorm()`, the vector is divided by `sqrt(z)` when
`z > 0` and is left as it is otherwise. -/
def normalize {K : Type} [LinearOrderedField K] (sqrt : K → K) (v : Vector3 K) :
    Vector3 K :=
  let z := squaredNorm v
  if 0 < z then fun i => v i / sqrt z else v

/-- The function `get_rotation` (main.cpp, lines 42-67). -/
def get_rotation {K : Type} [LinearOrderedField K] (sqrt cos sin : K → K)
    (axis : Vector3 K) (rotation_angle : K) : Matrix4 K :=
  let model : Matrix4 K := 1
  let radian := rotation_angle * MY_PI / 180
  let axis := normalize sqrt axis
  let q0 := cos (radian / 2)
  let q1 := axis 0 * sin (radian / 2)
  let q2 := axis 1 * sin (radian / 2)
  let q3 := axis 2 * sin (radian / 2)
  let model := setEntry model 0 0 (1 - 2 * q2 ^ 2 - 2 * q3 ^ 2)
  let model := setEntry model 0 1 (2 * q1 * q2 + 2 * q0 * q3)
  let model := setEntry model 0 2 (2 * q1 * q3 - 2 * q0 * q2)
  let model := setEntry model 1 0 (2 * q1 * q2 - 2 * q0 * q3)
  let model := setEntry model 1 1 (1 - 2 * q1 ^ 2 - 2 * q3 ^ 2)
  let model := setEntry model 1 2 (2 * q2 * q3 + 2 * q0 * q1)
  let model := setEntry model 2 0 (2 * q1 * q3 + 2 * q0 * q2)
  let model := setEntry model 2 1 (2 * q2 * q3 - 2 * q0 * q1)
  let model := setEntry model 2 2 (1 - 2 * q1 ^ 2 - 2 * q2 ^ 2)
  model

/-- The function `get_projection_matrix` (main.cpp, lines 69-87). -/
def get_projection_matrix {K : Type} [Field K] (tan : K → K)
    (eye_fov aspect_ratio zNear zFar : K) : Matrix4 K :=
  let projection : Matrix4 K := 1
  let radian := eye_fov * MY_PI / 180
  let top := zNear * tan (radian / 2)
  let right := top * aspect_ratio
  let projection := setEntry projection 0 0 (zNear / right)
  let projection := setEntry projection 1 1 (zNear / top)
  let projection := setEntry projection 2 2 (-(zFar + zNear) / (zFar - zNear))
  let projection := setEntry projection 3 2 (-1)
  let projection := setEntry projection 2 3 ((-2 * zFar * zNear) / (zFar - zNear))
  projection

/-- The clip-space depth of a homogeneous point `v` under the matrix `m`: the
`z` component of `m * v` divided by its `w` component (perspective divide). -/
def clipDepth {K : Type} [Field K] (m : Matrix4 K) (v : Vector4 K) : K :=
  Matrix.mulVec m v 2 / Matrix.mulVec m v 3

/-- The upper-left 3x3 block of a 4x4 matrix. -/
def upperLeft3 {K : Type} (m : Matrix4 K) : Matrix (Fin 3) (Fin 3) K :=
  fun i j => m i.castSucc j.castSucc

/-- The cross-product matrix `[u]x` of a 3-vector `u`: `[u]x * v = u × v`. -/
def crossMatrix {K : Type} [Field K] (u : Vector3 K) : Matrix (Fin 3) (Fin 3) K :=
  !![0, -u 2, u 1;
     u 2, 0, -u 0;
     -u 1, u 0, 0]

/-- The Rodrigues matrix of the specification, following its words: the
right-handed counter-clockwise rotation by `t` radians about the unit vector
`u` is `cos(t)*I + sin(t)*[u]x + (1 - cos(t))*u*u^T`. -/
def rodrigues {K : Type} [Field K] (cos sin : K → K) (u : Vector3 K) (t : K) :
    Matrix (Fin 3) (Fin 3) K :=
  cos t • (1 : Matrix (Fin 3) (Fin 3) K) + sin t • crossMatrix u
    + (1 - cos t) • Matrix.vecMulVec u u

/-- The vector `axis/|axis|` of the specification. -/
def unitAxis {K : Type} [Field K] (sqrt : K → K) (axis : Vector3 K) : Vector3 K :=
  fun i => axis i / sqrt (squaredNorm axis)

/-- The 3x3 block that `get_rotation` writes (main.cpp, lines 56-64), as a
function of the quaternion components `q0`, `q1`, `q2`, `q3`. -/
def quatBlock {K : Type} [Field K] (q0 q1 q2 q3 : K) : Matrix (Fin 3) (Fin 3) K :=
  !![1 - 2 * q2 ^ 2 - 2 * q3 ^ 2, 2 * q1 * q2 + 2 * q0 * q3, 2 * q1 * q3 - 2 * q0 * q2;
     2 * q1 * q2 - 2 * q0 * q3, 1 - 2 * q1 ^ 2 - 2 * q3 ^ 2, 2 * q2 * q3 + 2 * q0 * q1;
     2 * q1 * q3 + 2 * q0 * q2, 2 * q2 * q3 - 2 * q0 * q1, 1 - 2 * q1 ^ 2 - 2 * q2 ^ 2]

/-- The error conditions that the specification designates for invalid inputs
(section 7).  The source declares no error type and raises none of them. -/
inductive ErrorCondition where
  | InvalidAxis
  | InvalidClipRange
  deriving DecidableEq, Repr

/-- The outcome of a call `get_rotation(axis, rotation_angle)`.  The C++
function has return type `Eigen::Matrix4f`; its body (main.cpp, lines 42-67)
has no `throw`, no assertion and no early return, and floating-point division
does not trap, so every call returns the matrix it has filled in. -/
def get_rotation_call {K : Type} [LinearOrderedField K] (sqrt cos sin : K → K)
    (axis : Vector3 K) (rotation_angle : K) : Except ErrorCondition (Matrix4 K) :=
  Except.ok (get_rotation sqrt cos sin axis rotation_angle)

/-- The outcome of a call `get_projection_matrix(eye_fov, aspect_ratio, zNear,
zFar)`.  The C++ function has return type `Eigen::Matrix4f`; its body
(main.cpp, lines 69-87) has no `throw`, no assertion and no early return, and
floating-point division does not trap, so every call returns the matrix it has
filled in. -/
def get_projection_matrix_call {K : Type} [Field K] (tan : K → K)
    (eye_fov aspect_ratio zNear zFar : K) : Except ErrorCondition (Matrix4 K) :=
  Except.ok (get_projection_matrix tan eye_fov aspect_ratio zNear zFar)

/-- What a run of `main` does that is visible from outside, in order: a call
`r.draw(...)` under the transforms set just before it (`set_model`, `set_view`,
`set_projection`), a call `cv::imwrite(filename, image)`, a call
`cv::imshow("image", image)`, and a line `frame count: n` on `std::cout`. -/
inductive Event (K : Type) where
  | draw (model view projection : Matrix4 K)
  | imwrite (filename : String)
  | imshow
  | print (frame_count : Nat)

/-- How a run of `main` ends on the given input: it returns an exit code, or
`std::stof` throws and nothing catches the exception, or the keys of the input
are used up and the run is blocked in `cv::waitKey`. -/
inductive Termination where
  | returned (code : Int)
  | uncaught
  | waiting
  deriving DecidableEq, Repr

/-- A run of `main`: its events, in order, and how it ends. -/
structure Run (K : Type) where
  events : List (Event K)
  termination : Termination

/-- The body shared by batch mode and every iteration of the loop (main.cpp,
lines 129-136 and 149-157): the three transforms are set from the current
angle, the eye position `(0, 0, 5)` and the fixed camera parameters, and the
triangle is drawn. -/
def draw_frame {K : Type} [Field K] (cos sin tan : K → K) (angle : K) : Event K :=
  Event.draw (get_model_matrix cos sin angle) (get_view_matrix ![0, 0, 5])
    (get_projection_matrix tan 45 1 0.1 50)

/-- The key handling at the end of an iteration (main.cpp, lines 165-172);
the character `'a'` is the key code 97 and `'d'` is the key code 100. -/
def key_step {K : Type} [Field K] (angle : K) (key : Int) : K :=
  if key = ('a').toNat then angle + 10
  else if key = ('d').toNat then angle - 10
  else angle

/-- The loop `while (key != 27)` of `main` (main.cpp, lines 145-173), run on
the successive results of `cv::waitKey(10)`, from the current values of `key`,
`angle` and `frame_count`. -/
def render_loop {K : Type} [Field K] (cos sin tan : K → K) :
    List Int → Int → K → Nat → Run K
  | [], key, angle, _ =>
    if key ≠ 27 then
      ⟨[draw_frame cos sin tan angle, Event.imshow], Termination.waiting⟩
    else ⟨[], Termination.returned 0⟩
  | k :: keys, key, angle, frame_count =>
    if key ≠ 27 then
      let rest := render_loop cos sin tan keys k (key_step angle k) (frame_count + 1)
      ⟨draw_frame cos sin tan angle :: Event.imshow :: Event.print frame_count :: rest.events,
        rest.termination⟩
    else ⟨[], Termination.returned 0⟩

/-- The part of `main` after the argument handling (main.cpp, lines 111-175):
batch mode draws once and writes the image, interactive mode runs the loop
from `key = 0` and `frame_count = 0`. -/
def render {K : Type} [Field K] (cos sin tan : K → K) (command_line : Bool) (angle : K)
    (filename : String) (keys : List Int) : Run K :=
  if command_line then
    ⟨[draw_frame cos sin tan angle, Event.imwrite filename], Termination.returned 0⟩
  else render_loop cos sin tan keys 0 angle 0

/-- The function `main` (main.cpp, lines 89-176): `argv` is the argument
vector (`argc` is its length), `keys` are the successive results of
`cv::waitKey(10)`, and `stof` is `std::stof`, which yields `none` where it
throws. -/
def main {K : Type} [Field K] (stof : String → Option K) (cos sin tan : K → K)
    (argv : List String) (keys : List Int) : Run K :=
  let angle : K := 0
  let command_line := false
  let filename := "output.png"
  if 3 ≤ argv.length then
    let command_line := true
    match stof (argv.getD 2 "") with
    | none => ⟨[], Termination.uncaught⟩
    | some angle =>
      if argv.length = 4 then
        let filename := argv.getD 3 ""
        render cos sin tan command_line angle filename keys
      else ⟨[], Termination.returned 0⟩
  else render cos sin tan command_line angle filename keys

/-- Whether an event is a call of `r.draw`. -/
def Event.isDraw {K : Type} : Event K → Bool
  | Event.draw _ _ _ => true
  | _ => false

/-- The number of frames drawn in a run. -/
def frames_drawn {K : Type} (r : Run K) : Nat :=
  (r.events.filter Event.isDraw).length

/-- The file names written by `cv::imwrite` in a run, in order. -/
def files_written {K : Type} (r : Run K) : List String :=
  r.events.filterMap fun e => match e with
    | Event.imwrite f => some f
    | _ => none

/-! ## Binary32 rounding

The definitions above compute in exact arithmetic.  The following ones model
the binary32 (`float`) arithmetic of the source where its range and its
subnormal numbers decide a result: the squared norm, the square root and the
quotient inside Eigen's `normalize()`, and the `float` sum of two angles. -/

/-- The view matrix applied to a homogeneous point, component by component. -/
theorem get_view_matrix_apply (e p : Vector3 ℝ) :
    Matrix.mulVec (get_view_matrix e) (homogeneous p)
      = ![p 0 - e 0, p 1 - e 1, p 2 - e 2, 1] := by
  funext i
  fin_cases i <;>
    simp [get_view_matrix, homogeneous, Matrix.mulVec, Matrix.dotProduct,
      Fin.sum_univ_four] <;> ring

/-- The entries of `get_model_matrix`, row by row. -/
theorem get_model_matrix_eq (cos sin : ℝ → ℝ) (a : ℝ) :
    get_model_matrix cos sin a =
      !![cos (a * MY_PI / 180), -sin (a * MY_PI / 180), 0, 0;
         sin (a * MY_PI / 180), cos (a * MY_PI / 180), 0, 0;
         0, 0, 1, 0;
         0, 0, 0, 1] := by
  ext i j
  fin_cases i <;> fin_cases j <;>
    simp [get_model_matrix, setEntry, Matrix.vecHead, Matrix.vecTail]

/-- Claim C7: rotating about Z by `t` and then by `-t` is the identity. -/
theorem get_model_matrix_mul_neg (t : ℝ) :
    get_model_matrix Real.cos Real.sin t * get_model_matrix Real.cos Real.sin (-t) = 1 := by
  have hneg : -t * MY_PI / 180 = -(t * MY_PI / 180) := by ring
  rw [get_model_matrix_eq, get_model_matrix_eq, hneg, Real.cos_neg, Real.sin_neg]
  have h := Real.cos_sq_add_sin_sq (t * MY_PI / 180)
  ext i j
  fin_cases i <;> fin_cases j <;>
    simp [Matrix.mul_apply, Fin.sum_univ_four, Matrix.vecHead, Matrix.vecTail] <;>
    nlinarith [h]


/-- The entries of `get_rotation`, row by row, in terms of the normalized axis. -/
theorem get_rotation_eq (sqrt cos sin : ℝ → ℝ) (axis : Vector3 ℝ) (a : ℝ) :
    get_rotation sqrt cos sin axis a =
      !![1 - 2 * (normalize sqrt axis 1 * sin (a * MY_PI / 180 / 2)) ^ 2
            - 2 * (normalize sqrt axis 2 * sin (a * MY_PI / 180 / 2)) ^ 2,
         2 * (normalize sqrt axis 0 * sin (a * MY_PI / 180 / 2))
             * (normalize sqrt axis 1 * sin (a * MY_PI / 180 / 2))
           + 2 * cos (a * MY_PI / 180 / 2) * (normalize sqrt axis 2 * sin (a * MY_PI / 180 / 2)),
         2 * (normalize sqrt axis 0 * sin (a * MY_PI / 180 / 2))
             * (normalize sqrt axis 2 * sin (a * MY_PI / 180 / 2))
           - 2 * cos (a * MY_PI / 180 / 2) * (normalize sqrt axis 1 * sin (a * MY_PI / 180 / 2)),
         0;
         2 * (normalize sqrt axis 0 * sin (a * MY_PI / 180 / 2))
             * (normalize sqrt axis 1 * sin (a * MY_PI / 180 / 2))
           - 2 * cos (a * MY_PI / 180 / 2) * (normalize sqrt axis 2 * sin (a * MY_PI / 180 / 2)),
         1 - 2 * (normalize sqrt axis 0 * sin (a * MY_PI / 180 / 2)) ^ 2
            - 2 * (normalize sqrt axis 2 * sin (a * MY_PI / 180 / 2)) ^ 2,
         2 * (normalize sqrt axis 1 * sin (a * MY_PI / 180 / 2))
             * (normalize sqrt axis 2 * sin (a * MY_PI / 180 / 2))
           + 2 * cos (a * MY_PI / 180 / 2) * (normalize sqrt axis 0 * sin (a * MY_PI / 180 / 2)),
         0;
         2 * (normalize sqrt axis 0 * sin (a * MY_PI / 180 / 2))
             * (normalize sqrt axis 2 * sin (a * MY_PI / 180 / 2))
           + 2 * cos (a * MY_PI / 180 / 2) * (normalize sqrt axis 1 * sin (a * MY_PI / 180 / 2)),
         2 * (normalize sqrt axis 1 * sin (a * MY_PI / 180 / 2))
             * (normalize sqrt axis 2 * sin (a * MY_PI / 180 / 2))
           - 2 * cos (a * MY_PI / 180 / 2) * (normalize sqrt axis 0 * sin (a * MY_PI / 180 / 2)),
         1 - 2 * (normalize sqrt axis 0 * sin (a * MY_PI / 180 / 2)) ^ 2
            - 2 * (normalize sqrt axis 1 * sin (a * MY_PI / 180 / 2)) ^ 2,
         0;
         0, 0, 0, 1] := by
  ext i j
  fin_cases i <;> fin_cases j <;>
    simp [get_rotation, setEntry, Matrix.vecHead, Matrix.vecTail]

/-- The squared norm of a non-zero real vector is positive. -/
theorem squaredNorm_pos (v : Vector3 ℝ) (h : v ≠ 0) : 0 < squaredNorm v := by
  have h0 : v 0 ≠ 0 ∨ v 1 ≠ 0 ∨ v 2 ≠ 0 := by
    by_contra hc
    push_neg at hc
    apply h
    funext i
    fin_cases i
    · exact hc.1
    · exact hc.2.1
    · exact hc.2.2
  unfold squaredNorm
  rcases h0 with h0 | h0 | h0
  · have := mul_self_pos.mpr h0
    nlinarith [mul_self_nonneg (v 1), mul_self_nonneg (v 2)]
  · have := mul_self_pos.mpr h0
    nlinarith [mul_self_nonneg (v 0), mul_self_nonneg (v 2)]
  · have := mul_self_pos.mpr h0
    nlinarith [mul_self_nonneg (v 0), mul_self_nonneg (v 1)]

/-- On a non-zero real vector, `normalize` is the division by the norm. -/
theorem normalize_of_ne_zero (v : Vector3 ℝ) (h : v ≠ 0) :
    normalize Real.sqrt v = unitAxis Real.sqrt v := by
  unfold normalize unitAxis
  simp [squaredNorm_pos v h]

/-- The normalized vector of a non-zero real vector has squared norm one. -/
theorem squaredNorm_normalize (v : Vector3 ℝ) (h : v ≠ 0) :
    squaredNorm (normalize Real.sqrt v) = 1 := by
  have hz := squaredNorm_pos v h
  have hs : Real.sqrt (squaredNorm v) ^ 2 = squaredNorm v := Real.sq_sqrt hz.le
  have hne : Real.sqrt (squaredNorm v) ≠ 0 := (Real.sqrt_pos.mpr hz).ne'
  rw [normalize_of_ne_zero v h]
  have hexp : squaredNorm (unitAxis Real.sqrt v)
      = squaredNorm v / Real.sqrt (squaredNorm v) ^ 2 := by
    simp only [unitAxis, squaredNorm]
    field_simp
    ring
  rw [hexp, hs]
  exact div_self hz.ne'

/-- The zero vector is left unchanged by `normalize`. -/
theorem normalize_zero (sqrt : ℝ → ℝ) : normalize sqrt (0 : Vector3 ℝ) = 0 := by
  simp [normalize, squaredNorm]

/-- The vector `(0,0,1)` is left unchanged by `normalize`. -/
theorem normalize_e3 : normalize Real.sqrt (![0, 0, 1] : Vector3 ℝ) = ![0, 0, 1] := by
  funext i
  fin_cases i <;> simp [normalize, squaredNorm]


/-- The 4x4 identity matrix, row by row. -/
theorem one_fin_four :
    (!![1, 0, 0, 0; 0, 1, 0, 0; 0, 0, 1, 0; 0, 0, 0, 1] : Matrix4 ℝ) = 1 := by
  ext i j
  fin_cases i <;> fin_cases j <;> simp [Matrix.vecHead, Matrix.vecTail]

/-- The radian value of 90 degrees under `MY_PI` lies strictly between `0` and `π`,
so its sine is positive. -/
theorem sin_ninety_pos : 0 < Real.sin (90 * MY_PI / 180) := by
  have h3 := Real.pi_gt_three
  apply Real.sin_pos_of_pos_of_lt_pi
  · norm_num [MY_PI]
  · have : (90 * MY_PI / 180 : ℝ) < 3 := by norm_num [MY_PI]
    linarith

/-- Claim C1 (evaluation of the code at the failing input): with the
parameters of `main` (fov 45, aspect 1, zNear 0.1, zFar 50) the point
`(0, 0, -zNear, 1)` has clip-space depth `-1/11`, not `-1`, and the point
`(0, 0, -zFar, 1)` has clip-space depth `50/51`, not `+1`: entry `(3,3)` of
the returned matrix is the `1` of the identity, so `w = -z + 1`. -/
theorem get_projection_matrix_depth_at_main_parameters :
    clipDepth (get_projection_matrix Real.tan 45 1 0.1 50) ![0, 0, -0.1, 1] = -1 / 11 ∧
    clipDepth (get_projection_matrix Real.tan 45 1 0.1 50) ![0, 0, -50, 1] = 50 / 51 ∧
    get_projection_matrix Real.tan 45 1 0.1 50 3 3 = 1 := by
  refine ⟨?_, ?_, ?_⟩
  · simp [clipDepth, get_projection_matrix, setEntry, Matrix.mulVec, Matrix.dotProduct,
      Fin.sum_univ_four]
    norm_num
  · simp [clipDepth, get_projection_matrix, setEntry, Matrix.mulVec, Matrix.dotProduct,
      Fin.sum_univ_four]
    norm_num
  · simp [get_projection_matrix, setEntry]

/-- Claim C2 (evaluation of the code at the failing input): for the axis
`(0,0,1)` and the angle 90, with `t = 90*MY_PI/180`, entry `(0,1)` of the
rotation block of `get_rotation` is `+sin(t)` and entry `(1,0)` is `-sin(t)`,
while the Rodrigues matrix has `-sin(t)` at `(0,1)` and `+sin(t)` at `(1,0)`;
`sin(t)` is positive, so the two differ. -/
theorem get_rotation_z_ninety_vs_rodrigues :
    upperLeft3 (get_rotation Real.sqrt Real.cos Real.sin ![0, 0, 1] 90) 0 1
        = Real.sin (90 * MY_PI / 180) ∧
    upperLeft3 (get_rotation Real.sqrt Real.cos Real.sin ![0, 0, 1] 90) 1 0
        = -Real.sin (90 * MY_PI / 180) ∧
    rodrigues Real.cos Real.sin (unitAxis Real.sqrt ![0, 0, 1]) (90 * MY_PI / 180) 0 1
        = -Real.sin (90 * MY_PI / 180) ∧
    rodrigues Real.cos Real.sin (unitAxis Real.sqrt ![0, 0, 1]) (90 * MY_PI / 180) 1 0
        = Real.sin (90 * MY_PI / 180) ∧
    upperLeft3 (get_rotation Real.sqrt Real.cos Real.sin ![0, 0, 1] 90)
        ≠ rodrigues Real.cos Real.sin (unitAxis Real.sqrt ![0, 0, 1]) (90 * MY_PI / 180) := by
  have hpos := sin_ninety_pos
  have h2 : Real.sin (90 * MY_PI / 180)
      = 2 * Real.sin (90 * MY_PI / 180 / 2) * Real.cos (90 * MY_PI / 180 / 2) := by
    rw [← Real.sin_two_mul]
    congr 1
    ring
  have e01 : upperLeft3 (get_rotation Real.sqrt Real.cos Real.sin ![0, 0, 1] 90) 0 1
      = Real.sin (90 * MY_PI / 180) := by
    rw [get_rotation_eq, normalize_e3, h2]
    simp [upperLeft3]
    ring
  have e10 : upperLeft3 (get_rotation Real.sqrt Real.cos Real.sin ![0, 0, 1] 90) 1 0
      = -Real.sin (90 * MY_PI / 180) := by
    rw [get_rotation_eq, normalize_e3, h2]
    simp [upperLeft3]
    ring
  have r01 : rodrigues Real.cos Real.sin (unitAxis Real.sqrt ![0, 0, 1]) (90 * MY_PI / 180) 0 1
      = -Real.sin (90 * MY_PI / 180) := by
    simp [rodrigues, crossMatrix, unitAxis, squaredNorm, Matrix.vecMulVec]
  have r10 : rodrigues Real.cos Real.sin (unitAxis Real.sqrt ![0, 0, 1]) (90 * MY_PI / 180) 1 0
      = Real.sin (90 * MY_PI / 180) := by
    simp [rodrigues, crossMatrix, unitAxis, squaredNorm, Matrix.vecMulVec]
  refine ⟨e01, e10, r01, r10, ?_⟩
  intro h
  have := congrFun (congrFun h 0) 1
  rw [e01, r01] at this
  linarith

/-- Claim C4 (evaluation of the code at the failing input): at the angle 90,
with `t = 90*MY_PI/180`, entry `(0,1)` of `get_model_matrix` is `-sin(t)` and
entry `(0,1)` of `get_rotation` on the axis `(0,0,1)` is `+sin(t)`; `sin(t)` is
positive, so the two matrices differ. -/
theorem get_model_matrix_vs_get_rotation_z_ninety :
    get_model_matrix Real.cos Real.sin 90 0 1 = -Real.sin (90 * MY_PI / 180) ∧
    get_rotation Real.sqrt Real.cos Real.sin ![0, 0, 1] 90 0 1
        = Real.sin (90 * MY_PI / 180) ∧
    get_model_matrix Real.cos Real.sin 90
        ≠ get_rotation Real.sqrt Real.cos Real.sin ![0, 0, 1] 90 := by
  have hpos := sin_ninety_pos
  have h2 : Real.sin (90 * MY_PI / 180)
      = 2 * Real.sin (90 * MY_PI / 180 / 2) * Real.cos (90 * MY_PI / 180 / 2) := by
    rw [← Real.sin_two_mul]
    congr 1
    ring
  have m01 : get_model_matrix Real.cos Real.sin 90 0 1 = -Real.sin (90 * MY_PI / 180) := by
    rw [get_model_matrix_eq]
    simp
  have r01 : get_rotation Real.sqrt Real.cos Real.sin ![0, 0, 1] 90 0 1
      = Real.sin (90 * MY_PI / 180) := by
    rw [get_rotation_eq, normalize_e3, h2]
    simp
    ring
  refine ⟨m01, r01, ?_⟩
  intro h
  have := congrFun (congrFun h 0) 1
  rw [m01, r01] at this
  linarith

/-- Claim C5: for every eye position `e` and every point `p`, the view matrix
applied to the homogeneous point `(p, 1)` is `(p - e, 1)`, a translation by
`-e`; applied to `(e, 1)` it is the origin `(0, 0, 0, 1)`. -/
theorem get_view_matrix_translates (e p : Vector3 ℝ) :
    Matrix.mulVec (get_view_matrix e) (homogeneous p)
        = homogeneous (fun i => p i - e i) ∧
    Matrix.mulVec (get_view_matrix e) (homogeneous e) = ![0, 0, 0, 1] := by
  constructor
  · rw [get_view_matrix_apply]
    rfl
  · rw [get_view_matrix_apply]
    simp

/-- Claim C6: at angle 0 both variants of the model transform are the
identity: `get_model_matrix 0 = 1`, and `get_rotation axis 0 = 1` for every
non-zero axis. -/
theorem model_transform_zero_angle (axis : Vector3 ℝ) (_h : axis ≠ 0) :
    get_model_matrix Real.cos Real.sin 0 = 1 ∧
    get_rotation Real.sqrt Real.cos Real.sin axis 0 = 1 := by
  constructor
  · rw [get_model_matrix_eq]
    simp [one_fin_four]
  · rw [get_rotation_eq]
    simp [one_fin_four]

/-- Witness of claim C6 at the axis `(1, 1, 0)`. -/
theorem model_transform_zero_angle_witness :
    (![1, 1, 0] : Vector3 ℝ) ≠ 0 ∧
    get_model_matrix Real.cos Real.sin 0 = 1 ∧
    get_rotation Real.sqrt Real.cos Real.sin ![1, 1, 0] 0 = 1 :=
  have h : (![1, 1, 0] : Vector3 ℝ) ≠ 0 := fun hc => by
    have := congrFun hc 0
    simp at this
  ⟨h, model_transform_zero_angle ![1, 1, 0] h⟩


/-- The index `2` of the 3x3 block is the index `2` of the 4x4 matrix. -/
theorem castSucc_two : (Fin.castSucc (2 : Fin 3) : Fin 4) = 2 := rfl

/-- The rotation block of `get_rotation` is `quatBlock` at the quaternion of
the half angle and the normalized axis. -/
theorem upperLeft3_get_rotation (sqrt cos sin : ℝ → ℝ) (axis : Vector3 ℝ) (a : ℝ) :
    upperLeft3 (get_rotation sqrt cos sin axis a) =
      quatBlock (cos (a * MY_PI / 180 / 2))
        (normalize sqrt axis 0 * sin (a * MY_PI / 180 / 2))
        (normalize sqrt axis 1 * sin (a * MY_PI / 180 / 2))
        (normalize sqrt axis 2 * sin (a * MY_PI / 180 / 2)) := by
  rw [get_rotation_eq]
  ext i j
  fin_cases i <;> fin_cases j <;>
    simp [upperLeft3, quatBlock, castSucc_two, Matrix.vecHead, Matrix.vecTail]

/-- The quaternion that `get_rotation` builds from a non-zero axis has norm one. -/
theorem quaternion_unit (axis : Vector3 ℝ) (h : axis ≠ 0) (x : ℝ) :
    Real.cos x ^ 2 + (normalize Real.sqrt axis 0 * Real.sin x) ^ 2
      + (normalize Real.sqrt axis 1 * Real.sin x) ^ 2
      + (normalize Real.sqrt axis 2 * Real.sin x) ^ 2 = 1 := by
  have hu := squaredNorm_normalize axis h
  have hcs := Real.cos_sq_add_sin_sq x
  unfold squaredNorm at hu
  linear_combination hcs + Real.sin x ^ 2 * hu

/-- The block of a unit quaternion is orthogonal. -/
theorem quatBlock_transpose_mul (q0 q1 q2 q3 : ℝ)
    (h : q0 ^ 2 + q1 ^ 2 + q2 ^ 2 + q3 ^ 2 = 1) :
    (quatBlock q0 q1 q2 q3).transpose * quatBlock q0 q1 q2 q3 = 1 := by
  ext i j
  fin_cases i <;> fin_cases j <;>
    simp [quatBlock, Matrix.mul_apply, Fin.sum_univ_three, Matrix.vecHead, Matrix.vecTail] <;>
    first
      | linear_combination (4 * (q2 ^ 2 + q3 ^ 2)) * h
      | linear_combination (4 * (q1 ^ 2 + q3 ^ 2)) * h
      | linear_combination (4 * (q1 ^ 2 + q2 ^ 2)) * h
      | linear_combination (-4 * q1 * q2) * h
      | linear_combination (-4 * q1 * q3) * h
      | linear_combination (-4 * q2 * q3) * h

/-- The block of a unit quaternion has determinant one. -/
theorem quatBlock_det (q0 q1 q2 q3 : ℝ)
    (h : q0 ^ 2 + q1 ^ 2 + q2 ^ 2 + q3 ^ 2 = 1) :
    (quatBlock q0 q1 q2 q3).det = 1 := by
  have h00 : 1 - 2 * q2 ^ 2 - 2 * q3 ^ 2 = q0 ^ 2 + q1 ^ 2 - q2 ^ 2 - q3 ^ 2 := by
    linear_combination -h
  have h11 : 1 - 2 * q1 ^ 2 - 2 * q3 ^ 2 = q0 ^ 2 - q1 ^ 2 + q2 ^ 2 - q3 ^ 2 := by
    linear_combination -h
  have h22 : 1 - 2 * q1 ^ 2 - 2 * q2 ^ 2 = q0 ^ 2 - q1 ^ 2 - q2 ^ 2 + q3 ^ 2 := by
    linear_combination -h
  unfold quatBlock
  rw [h00, h11, h22, Matrix.det_fin_three]
  simp [Matrix.vecHead, Matrix.vecTail]
  linear_combination
    ((q0 ^ 2 + q1 ^ 2 + q2 ^ 2 + q3 ^ 2) ^ 2 + (q0 ^ 2 + q1 ^ 2 + q2 ^ 2 + q3 ^ 2) + 1) * h

/-- In exact arithmetic, for every non-zero axis and every angle, the rotation
block `R` of `get_rotation` is orthonormal with determinant one: `Rᵀ * R = 1`
and `det R = 1`. -/
theorem get_rotation_orthonormal (axis : Vector3 ℝ) (h : axis ≠ 0) (angle : ℝ) :
    (upperLeft3 (get_rotation Real.sqrt Real.cos Real.sin axis angle)).transpose
        * upperLeft3 (get_rotation Real.sqrt Real.cos Real.sin axis angle) = 1 ∧
    (upperLeft3 (get_rotation Real.sqrt Real.cos Real.sin axis angle)).det = 1 := by
  have hq := quaternion_unit axis h (angle * MY_PI / 180 / 2)
  rw [upperLeft3_get_rotation]
  exact ⟨quatBlock_transpose_mul _ _ _ _ hq, quatBlock_det _ _ _ _ hq⟩

/-- The instance of `get_rotation_orthonormal` at the axis `(1, 1, 0)` and the
angle 60. -/
theorem get_rotation_orthonormal_witness :
    (![1, 1, 0] : Vector3 ℝ) ≠ 0 ∧
    (upperLeft3 (get_rotation Real.sqrt Real.cos Real.sin ![1, 1, 0] 60)).transpose
        * upperLeft3 (get_rotation Real.sqrt Real.cos Real.sin ![1, 1, 0] 60) = 1 ∧
    (upperLeft3 (get_rotation Real.sqrt Real.cos Real.sin ![1, 1, 0] 60)).det = 1 :=
  have h : (![1, 1, 0] : Vector3 ℝ) ≠ 0 := fun hc => by
    have := congrFun hc 0
    simp at this
  ⟨h, get_rotation_orthonormal ![1, 1, 0] h 60⟩


/-- A product is bounded by the product of the bounds of its factors. -/
theorem abs_mul_le_of_abs_le {x y X Y : ℝ} (hx : |x| ≤ X) (hy : |y| ≤ Y) : |x * y| ≤ X * Y := by
  rw [abs_mul]
  exact mul_le_mul hx hy (abs_nonneg _) (le_trans (abs_nonneg _) hx)

/-- The sine of `MY_PI` is small: `MY_PI` is within `6e-8` below `π`. -/
theorem abs_sin_MY_PI_le : |Real.sin (MY_PI : ℝ)| ≤ 6 / 100000000 := by
  have hlo := Real.pi_gt_d20
  have hhi := Real.pi_lt_d20
  have hval : (MY_PI : ℝ) = 3.1415926 := rfl
  have h0 : 0 ≤ Real.pi - MY_PI := by
    rw [hval]
    norm_num at hlo ⊢
    linarith
  have h1 : Real.pi - MY_PI ≤ 6 / 100000000 := by
    rw [hval]
    norm_num at hhi ⊢
    linarith
  have hs : Real.sin (MY_PI : ℝ) = Real.sin (Real.pi - MY_PI) := (Real.sin_pi_sub _).symm
  have hnn : 0 ≤ Real.sin (Real.pi - MY_PI) :=
    Real.sin_nonneg_of_nonneg_of_le_pi h0 (by linarith [Real.pi_pos, h0])
  have hle : Real.sin (Real.pi - MY_PI) ≤ Real.pi - MY_PI := Real.sin_le h0
  rw [hs, abs_of_nonneg hnn]
  linarith

/-- Each component of the normalized vector of a non-zero real vector is at
most one in absolute value. -/
theorem abs_normalize_le_one (v : Vector3 ℝ) (h : v ≠ 0) (i : Fin 3) :
    |normalize Real.sqrt v i| ≤ 1 := by
  have hu := squaredNorm_normalize v h
  unfold squaredNorm at hu
  rw [abs_le_one_iff_mul_self_le_one]
  fin_cases i
  · show normalize Real.sqrt v 0 * normalize Real.sqrt v 0 ≤ 1
    nlinarith [mul_self_nonneg (normalize Real.sqrt v 1), mul_self_nonneg (normalize Real.sqrt v 2)]
  · show normalize Real.sqrt v 1 * normalize Real.sqrt v 1 ≤ 1
    nlinarith [mul_self_nonneg (normalize Real.sqrt v 0), mul_self_nonneg (normalize Real.sqrt v 2)]
  · show normalize Real.sqrt v 2 * normalize Real.sqrt v 2 ≤ 1
    nlinarith [mul_self_nonneg (normalize Real.sqrt v 0), mul_self_nonneg (normalize Real.sqrt v 1)]

/-- The matrix built from a quaternion with `|q0| ≤ 1` and a vector part
bounded by `6e-8` is within `1e-6` of the identity, entry by entry. -/
theorem quat_matrix_near_one (q0 q1 q2 q3 : ℝ) (h0 : |q0| ≤ 1)
    (h1 : |q1| ≤ 6 / 100000000) (h2 : |q2| ≤ 6 / 100000000) (h3 : |q3| ≤ 6 / 100000000)
    (i j : Fin 4) :
    |(!![1 - 2 * q2 ^ 2 - 2 * q3 ^ 2, 2 * q1 * q2 + 2 * q0 * q3,
          2 * q1 * q3 - 2 * q0 * q2, 0;
         2 * q1 * q2 - 2 * q0 * q3, 1 - 2 * q1 ^ 2 - 2 * q3 ^ 2,
          2 * q2 * q3 + 2 * q0 * q1, 0;
         2 * q1 * q3 + 2 * q0 * q2, 2 * q2 * q3 - 2 * q0 * q1,
          1 - 2 * q1 ^ 2 - 2 * q2 ^ 2, 0;
         0, 0, 0, 1] : Matrix4 ℝ) i j - (1 : Matrix4 ℝ) i j| ≤ 1 / 1000000 := by
  obtain ⟨l12, u12⟩ := abs_le.mp (abs_mul_le_of_abs_le h1 h2)
  obtain ⟨l13, u13⟩ := abs_le.mp (abs_mul_le_of_abs_le h1 h3)
  obtain ⟨l23, u23⟩ := abs_le.mp (abs_mul_le_of_abs_le h2 h3)
  obtain ⟨l01, u01⟩ := abs_le.mp (abs_mul_le_of_abs_le h0 h1)
  obtain ⟨l02, u02⟩ := abs_le.mp (abs_mul_le_of_abs_le h0 h2)
  obtain ⟨l03, u03⟩ := abs_le.mp (abs_mul_le_of_abs_le h0 h3)
  obtain ⟨-, u11⟩ := abs_le.mp (abs_mul_le_of_abs_le h1 h1)
  obtain ⟨-, u22⟩ := abs_le.mp (abs_mul_le_of_abs_le h2 h2)
  obtain ⟨-, u33⟩ := abs_le.mp (abs_mul_le_of_abs_le h3 h3)
  have s1 := mul_self_nonneg q1
  have s2 := mul_self_nonneg q2
  have s3 := mul_self_nonneg q3
  clear h0 h1 h2 h3
  rw [abs_le]
  fin_cases i <;> fin_cases j <;>
    simp [Matrix.vecHead, Matrix.vecTail] <;>
    (constructor <;> linarith)

/-- Claim C8: for every non-zero axis, every entry of `get_rotation axis 360`
differs from the corresponding entry of the 4x4 identity by at most `1e-6`
(the half angle is `MY_PI = 3.1415926` radians, which lies `5.4e-8` below `π`). -/
theorem get_rotation_full_turn (axis : Vector3 ℝ) (h : axis ≠ 0) (i j : Fin 4) :
    |get_rotation Real.sqrt Real.cos Real.sin axis 360 i j - (1 : Matrix4 ℝ) i j|
      ≤ 1 / 1000000 := by
  have hr : (360 * MY_PI / 180 / 2 : ℝ) = MY_PI := by ring
  have hs := abs_sin_MY_PI_le
  have hq : ∀ k : Fin 3,
      |normalize Real.sqrt axis k * Real.sin (MY_PI : ℝ)| ≤ 6 / 100000000 := by
    intro k
    have := abs_mul_le_of_abs_le (abs_normalize_le_one axis h k) hs
    linarith
  rw [get_rotation_eq, hr]
  exact quat_matrix_near_one _ _ _ _ (Real.abs_cos_le_one _) (hq 0) (hq 1) (hq 2) i j

/-- Witness of claim C8 at the axis `(1, 1, 0)`, entry `(0, 1)`. -/
theorem get_rotation_full_turn_witness :
    (![1, 1, 0] : Vector3 ℝ) ≠ 0 ∧
    |get_rotation Real.sqrt Real.cos Real.sin ![1, 1, 0] 360 0 1 - (1 : Matrix4 ℝ) 0 1|
      ≤ 1 / 1000000 :=
  have h : (![1, 1, 0] : Vector3 ℝ) ≠ 0 := fun hc => by
    have := congrFun hc 0
    simp at this
  ⟨h, get_rotation_full_turn ![1, 1, 0] h 0 1⟩


/-- Claim C9 (counterexample): called with the axis `(0,0,0)` and the angle 60,
`get_rotation` does not fail with `InvalidAxis`; it returns a matrix. -/
theorem get_rotation_zero_axis_no_error :
    get_rotation_call Real.sqrt Real.cos Real.sin ![0, 0, 0] 60
      ≠ Except.error ErrorCondition.InvalidAxis := by
  simp [get_rotation_call]

/-- Claim C9 (amended): for every angle, `get_rotation` called with the axis
`(0,0,0)` raises no error and returns a matrix; `normalize` leaves the zero
vector as it is, so `q1 = q2 = q3 = 0` and the matrix is the 4x4 identity. -/
theorem zero_axis_returns_identity (angle : ℝ) :
    get_rotation_call Real.sqrt Real.cos Real.sin ![0, 0, 0] angle = Except.ok 1 := by
  have hz : (![0, 0, 0] : Vector3 ℝ) = 0 := by
    funext i
    fin_cases i <;> rfl
  unfold get_rotation_call
  rw [get_rotation_eq, hz, normalize_zero]
  simp [one_fin_four]

/-- Claim C10 (counterexample): called with `zFar = zNear = 1` (fov 45,
aspect 1), `get_projection_matrix` does not fail with `InvalidClipRange`; it
returns a matrix. -/
theorem get_projection_matrix_equal_planes_no_error :
    get_projection_matrix_call Real.tan 45 1 1 1
      ≠ Except.error ErrorCondition.InvalidClipRange := by
  simp [get_projection_matrix_call]

/-- Claim C19: on the Z axis the quaternion variant is the fixed-Z variant at
the negated angle: for every angle, `get_rotation (0,0,1) angle` equals
`get_model_matrix (-angle)`. -/
theorem get_rotation_z_eq_get_model_matrix_neg (angle : ℝ) :
    get_rotation Real.sqrt Real.cos Real.sin ![0, 0, 1] angle
      = get_model_matrix Real.cos Real.sin (-angle) := by
  have hneg : -angle * MY_PI / 180 = -(angle * MY_PI / 180) := by ring
  have hdouble : angle * MY_PI / 180 = 2 * (angle * MY_PI / 180 / 2) := by ring
  have hcs := Real.cos_sq_add_sin_sq (angle * MY_PI / 180 / 2)
  have hc : Real.cos (angle * MY_PI / 180)
      = 1 - 2 * Real.sin (angle * MY_PI / 180 / 2) ^ 2 := by
    rw [hdouble, Real.cos_two_mul]
    have h2 : 2 * (angle * MY_PI / 180 / 2) / 2 = angle * MY_PI / 180 / 2 := by ring
    rw [h2]
    linarith
  have hs : Real.sin (angle * MY_PI / 180)
      = 2 * Real.sin (angle * MY_PI / 180 / 2) * Real.cos (angle * MY_PI / 180 / 2) := by
    rw [hdouble, Real.sin_two_mul]
    have h2 : 2 * (angle * MY_PI / 180 / 2) / 2 = angle * MY_PI / 180 / 2 := by ring
    rw [h2]
  rw [get_rotation_eq, get_model_matrix_eq, normalize_e3, hneg, Real.cos_neg, Real.sin_neg,
    hc, hs]
  ext i j
  fin_cases i <;> fin_cases j <;>
    simp [Matrix.vecHead, Matrix.vecTail] <;> ring

/-- Claim C11: both variants change only the rotation block of the identity:
`get_model_matrix angle` has the entries of the identity outside rows and
columns 0-1, and for a non-zero axis `get_rotation axis angle` has last row
`(0,0,0,1)` and last column `(0,0,0,1)`. -/
theorem model_transform_frame (axis : Vector3 ℝ) (_h : axis ≠ 0) (angle : ℝ) :
    (∀ i j : Fin 4, 2 ≤ i ∨ 2 ≤ j →
      get_model_matrix Real.cos Real.sin angle i j = (1 : Matrix4 ℝ) i j) ∧
    get_rotation Real.sqrt Real.cos Real.sin axis angle 3 = ![0, 0, 0, 1] ∧
    (fun i => get_rotation Real.sqrt Real.cos Real.sin axis angle i 3) = ![0, 0, 0, 1] := by
  refine ⟨?_, ?_, ?_⟩
  · intro i j
    fin_cases i <;> fin_cases j <;> simp [get_model_matrix, setEntry]
  · funext j
    fin_cases j <;> simp [get_rotation, setEntry]
  · funext i
    fin_cases i <;> simp [get_rotation, setEntry]

/-- Witness of claim C11 at the axis `(1, 1, 0)` and the angle 60. -/
theorem model_transform_frame_witness :
    (![1, 1, 0] : Vector3 ℝ) ≠ 0 ∧
    (∀ i j : Fin 4, 2 ≤ i ∨ 2 ≤ j →
      get_model_matrix Real.cos Real.sin 60 i j = (1 : Matrix4 ℝ) i j) ∧
    get_rotation Real.sqrt Real.cos Real.sin ![1, 1, 0] 60 3 = ![0, 0, 0, 1] ∧
    (fun i => get_rotation Real.sqrt Real.cos Real.sin ![1, 1, 0] 60 i 3) = ![0, 0, 0, 1] :=
  have h : (![1, 1, 0] : Vector3 ℝ) ≠ 0 := fun hc => by
    have := congrFun hc 0
    simp at this
  ⟨h, model_transform_frame ![1, 1, 0] h 60⟩

/-- Claim C16 (evaluation of the code at the failing input): with the
parameters of `main` (fov 45, aspect 1, zNear 0.1, zFar 50), the bottom row of
the projection matrix is `(0, 0, -1, 1)`, not `(0, 0, -1, 0)`, and the vertex
`(2, 0, -2)` of `main` seen from the eye `(0, 0, 5)`, the point
`(2, 0, -7, 1)`, gets `w = 8`, not `-z = 7`. -/
theorem get_projection_matrix_w_at_main_parameters :
    get_projection_matrix Real.tan 45 1 0.1 50 3 = ![0, 0, -1, 1] ∧
    Matrix.mulVec (get_projection_matrix Real.tan 45 1 0.1 50) ![2, 0, -7, 1] 3 = 8 := by
  constructor
  · funext j
    fin_cases j <;> simp [get_projection_matrix, setEntry]
  · simp [get_projection_matrix, setEntry, Matrix.mulVec, Matrix.dotProduct,
      Fin.sum_univ_four]
    norm_num

/-- On real vectors, `normalize` does not see a positive scale factor:
`normalize (k * v) = normalize v` for `k > 0` and `v ≠ 0`. -/
theorem normalize_smul (k : ℝ) (hk : 0 < k) (v : Vector3 ℝ) (h : v ≠ 0) :
    normalize Real.sqrt (fun i => k * v i) = normalize Real.sqrt v := by
  have hz := squaredNorm_pos v h
  have hkz : squaredNorm (fun i => k * v i) = k ^ 2 * squaredNorm v := by
    simp only [squaredNorm]
    ring
  have hkpos : 0 < squaredNorm (fun i => k * v i) := by
    rw [hkz]
    positivity
  have hsqrt : Real.sqrt (k ^ 2 * squaredNorm v) = k * Real.sqrt (squaredNorm v) := by
    rw [Real.sqrt_mul (sq_nonneg k), Real.sqrt_sq hk.le]
  funext i
  simp only [normalize, hkpos, hz, if_true]
  rw [hkz, hsqrt]
  exact mul_div_mul_left _ _ hk.ne'

/-- In exact arithmetic the rotation builder does not see a positive scale
factor of the axis: for every non-zero axis, every `k > 0` and every angle,
`get_rotation (k * axis) angle = get_rotation axis angle`. -/
theorem get_rotation_scale_axis (axis : Vector3 ℝ) (h : axis ≠ 0) (k : ℝ) (hk : 0 < k)
    (angle : ℝ) :
    get_rotation Real.sqrt Real.cos Real.sin (fun i => k * axis i) angle
      = get_rotation Real.sqrt Real.cos Real.sin axis angle := by
  rw [get_rotation_eq, get_rotation_eq, normalize_smul k hk axis h]

/-- The instance of `get_rotation_scale_axis` at the axis `(1, 1, 0)`, the
factor 3 and the angle 60. -/
theorem get_rotation_scale_axis_witness :
    (![1, 1, 0] : Vector3 ℝ) ≠ 0 ∧ (0 : ℝ) < 3 ∧
    get_rotation Real.sqrt Real.cos Real.sin (fun i => 3 * (![1, 1, 0] : Vector3 ℝ) i) 60
      = get_rotation Real.sqrt Real.cos Real.sin ![1, 1, 0] 60 :=
  have h : (![1, 1, 0] : Vector3 ℝ) ≠ 0 := fun hc => by
    have := congrFun hc 0
    simp at this
  ⟨h, by norm_num, get_rotation_scale_axis ![1, 1, 0] h 3 (by norm_num) 60⟩

/-- A non-zero real vector is its norm times its normalized vector. -/
theorem eq_sqrt_mul_normalize (v : Vector3 ℝ) (h : v ≠ 0) (i : Fin 3) :
    v i = Real.sqrt (squaredNorm v) * normalize Real.sqrt v i := by
  have hz := squaredNorm_pos v h
  have hne : Real.sqrt (squaredNorm v) ≠ 0 := (Real.sqrt_pos.mpr hz).ne'
  rw [normalize_of_ne_zero v h]
  simp only [unitAxis]
  field_simp

/-- Claim C17: the rotation built by `get_rotation` leaves its own axis fixed:
for every non-zero axis and every angle, `get_rotation axis angle` applied to
the homogeneous vector `(axis, 1)` is `(axis, 1)`. -/
theorem get_rotation_fixes_axis (axis : Vector3 ℝ) (h : axis ≠ 0) (angle : ℝ) :
    Matrix.mulVec (get_rotation Real.sqrt Real.cos Real.sin axis angle) (homogeneous axis)
      = homogeneous axis := by
  have h0 := eq_sqrt_mul_normalize axis h 0
  have h1 := eq_sqrt_mul_normalize axis h 1
  have h2 := eq_sqrt_mul_normalize axis h 2
  rw [get_rotation_eq]
  generalize normalize Real.sqrt axis = u at h0 h1 h2
  generalize Real.sqrt (squaredNorm axis) = n at h0 h1 h2
  funext i
  fin_cases i <;>
    simp [homogeneous, Matrix.mulVec, Matrix.dotProduct, Fin.sum_univ_four, Matrix.vecHead,
      Matrix.vecTail] <;>
    rw [h0, h1, h2] <;> ring

/-- Witness of claim C17 at the axis `(1, 1, 0)` and the angle 60. -/
theorem get_rotation_fixes_axis_witness :
    (![1, 1, 0] : Vector3 ℝ) ≠ 0 ∧
    Matrix.mulVec (get_rotation Real.sqrt Real.cos Real.sin ![1, 1, 0] 60)
        (homogeneous ![1, 1, 0])
      = homogeneous ![1, 1, 0] :=
  have h : (![1, 1, 0] : Vector3 ℝ) ≠ 0 := fun hc => by
    have := congrFun hc 0
    simp at this
  ⟨h, get_rotation_fixes_axis ![1, 1, 0] h 60⟩

/-- The loop entered with `key = 27` returns at once. -/
theorem render_loop_escape (keys : List Int) (angle : ℝ) (frame_count : Nat) :
    render_loop Real.cos Real.sin Real.tan keys 27 angle frame_count
      = ⟨[], Termination.returned 0⟩ := by
  cases keys <;> simp [render_loop]

/-- One iteration of the loop: entered with a key other than 27, the frame is
drawn and shown at the current angle, the next key `k` is read, the frame
count is printed, and the loop goes on from `key_step angle k`. -/
theorem render_loop_cons (k : Int) (keys : List Int) (key : Int) (hkey : key ≠ 27)
    (angle : ℝ) (frame_count : Nat) :
    render_loop Real.cos Real.sin Real.tan (k :: keys) key angle frame_count =
      ⟨draw_frame Real.cos Real.sin Real.tan angle :: Event.imshow :: Event.print frame_count
          :: (render_loop Real.cos Real.sin Real.tan keys k (key_step angle k)
                (frame_count + 1)).events,
        (render_loop Real.cos Real.sin Real.tan keys k (key_step angle k)
          (frame_count + 1)).termination⟩ := by
  simp [render_loop, hkey]

/-- The loop stops when the key 27 is read: after the keys `pre`, none of which
is 27, and then 27, it returns 0, having drawn `pre.length + 1` frames. -/
theorem render_loop_stops (pre rest : List Int) (hpre : (27 : Int) ∉ pre) (key : Int)
    (hkey : key ≠ 27) (angle : ℝ) (frame_count : Nat) :
    (render_loop Real.cos Real.sin Real.tan (pre ++ 27 :: rest) key angle
        frame_count).termination = Termination.returned 0 ∧
    frames_drawn (render_loop Real.cos Real.sin Real.tan (pre ++ 27 :: rest) key angle
        frame_count) = pre.length + 1 := by
  induction pre generalizing key angle frame_count with
  | nil =>
    rw [List.nil_append, render_loop_cons 27 rest key hkey, render_loop_escape]
    simp [frames_drawn, draw_frame, Event.isDraw]
  | cons k pre ih =>
    have hk : k ≠ 27 := fun hc => hpre (by simp [hc])
    have hpre2 : (27 : Int) ∉ pre := fun hc => hpre (List.mem_cons_of_mem _ hc)
    obtain ⟨h1, h2⟩ := ih hpre2 k hk (key_step angle k) (frame_count + 1)
    rw [List.cons_append, render_loop_cons k _ key hkey]
    refine ⟨h1, ?_⟩
    simp only [frames_drawn] at h2 ⊢
    simp [draw_frame, Event.isDraw, h2]

/-- The loop does not stop while no key 27 is read: on keys none of which is
27 it ends blocked in `cv::waitKey`. -/
theorem render_loop_waits (keys : List Int) (hkeys : (27 : Int) ∉ keys) (key : Int)
    (hkey : key ≠ 27) (angle : ℝ) (frame_count : Nat) :
    (render_loop Real.cos Real.sin Real.tan keys key angle frame_count).termination
      = Termination.waiting := by
  induction keys generalizing key angle frame_count with
  | nil => simp [render_loop, hkey]
  | cons k keys ih =>
    have hk : k ≠ 27 := fun hc => hkeys (by simp [hc])
    have hkeys2 : (27 : Int) ∉ keys := fun hc => hkeys (List.mem_cons_of_mem _ hc)
    rw [render_loop_cons k keys key hkey]
    exact ih hkeys2 k hk _ _

/-- The key codes of the characters `'a'` and `'d'`. -/
theorem key_codes : ((('a').toNat : Int) = 97) ∧ ((('d').toNat : Int) = 100) := by
  constructor <;> rfl

/-- The key handling on each kind of key. -/
theorem key_step_cases (angle : ℝ) :
    key_step angle 97 = angle + 10 ∧ key_step angle 100 = angle - 10 ∧
    (∀ key : Int, key ≠ 97 → key ≠ 100 → key_step angle key = angle) := by
  obtain ⟨ha, hd⟩ := key_codes
  refine ⟨?_, ?_, ?_⟩
  · simp [key_step]
  · simp [key_step]
  · intro key h1 h2
    simp [key_step, ha, hd, h1, h2]

/-- With fewer than three arguments `main` runs the loop from `key = 0`,
`angle = 0` and `frame_count = 0`. -/
theorem main_interactive (stof : String → Option ℝ) (argv : List String) (keys : List Int)
    (hargc : argv.length < 3) :
    main stof Real.cos Real.sin Real.tan argv keys
      = render_loop Real.cos Real.sin Real.tan keys 0 0 0 := by
  have h : ¬ 3 ≤ argv.length := by omega
  simp [main, render, h]

/-- Claim C13 (counterexample): started as `./Rasterizer -r 20` (argc = 3),
`main` returns 0 with no event at all: nothing is drawn and no file, so no
`output.png`, is written. -/
theorem main_two_arguments_writes_nothing :
    main (fun s => if s = "20" then some (20 : ℝ) else none) Real.cos Real.sin Real.tan
        ["./Rasterizer", "-r", "20"] []
      = ⟨[], Termination.returned 0⟩ ∧
    "output.png" ∉ files_written
      (main (fun s => if s = "20" then some (20 : ℝ) else none) Real.cos Real.sin Real.tan
        ["./Rasterizer", "-r", "20"] []) := by
  have h : main (fun s => if s = "20" then some (20 : ℝ) else none) Real.cos Real.sin Real.tan
      ["./Rasterizer", "-r", "20"] [] = ⟨[], Termination.returned 0⟩ := by
    simp [main]
  refine ⟨h, ?_⟩
  rw [h]
  simp [files_written]

/-- Claim C13 (amended): started with three positional arguments (argc = 4)
where `argv[2]` parses as the angle `x`, `main` runs batch mode: it draws one
frame with the transforms of the angle `x`, writes one image to the file named
by `argv[3]`, and returns 0; started with two positional arguments (argc = 3)
it writes no file. -/
theorem main_batch_mode (stof : String → Option ℝ) (p e a f : String) (x : ℝ)
    (keys : List Int) (h : stof a = some x) :
    main stof Real.cos Real.sin Real.tan [p, e, a, f] keys
      = ⟨[draw_frame Real.cos Real.sin Real.tan x, Event.imwrite f],
          Termination.returned 0⟩ ∧
    files_written (main stof Real.cos Real.sin Real.tan [p, e, a, f] keys) = [f] ∧
    files_written (main stof Real.cos Real.sin Real.tan [p, e, a] keys) = [] := by
  refine ⟨?_, ?_, ?_⟩
  · simp [main, render, h]
  · simp [main, render, h, files_written, draw_frame]
  · simp [main, h, files_written]

/-- Witness of claim C13 (amended) at the command line
`./Rasterizer -r 20 image.png`. -/
theorem main_batch_mode_witness :
    (fun s : String => if s = "20" then some (20 : ℝ) else none) "20" = some 20 ∧
    main (fun s => if s = "20" then some (20 : ℝ) else none) Real.cos Real.sin Real.tan
        ["./Rasterizer", "-r", "20", "image.png"] []
      = ⟨[draw_frame Real.cos Real.sin Real.tan 20, Event.imwrite "image.png"],
          Termination.returned 0⟩ ∧
    files_written
      (main (fun s => if s = "20" then some (20 : ℝ) else none) Real.cos Real.sin Real.tan
        ["./Rasterizer", "-r", "20", "image.png"] []) = ["image.png"] ∧
    files_written
      (main (fun s => if s = "20" then some (20 : ℝ) else none) Real.cos Real.sin Real.tan
        ["./Rasterizer", "-r", "20"] []) = [] :=
  ⟨by simp, main_batch_mode _ "./Rasterizer" "-r" "20" "image.png" 20 [] (by simp)⟩

/-- Claim C14: started with exactly 3 arguments in total, where `argv[2]`
parses as an angle, `main` returns the exit code 0 at once: the run has no
event, so nothing is drawn and no image is written. -/
theorem main_three_arguments (stof : String → Option ℝ) (argv : List String) (x : ℝ)
    (keys : List Int) (hargc : argv.length = 3) (h : stof (argv.getD 2 "") = some x) :
    main stof Real.cos Real.sin Real.tan argv keys = ⟨[], Termination.returned 0⟩ := by
  unfold main
  simp only [hargc, h]
  simp

/-- Witness of claim C14 at the command line `./Rasterizer -r 20`. -/
theorem main_three_arguments_witness :
    ["./Rasterizer", "-r", "20"].length = 3 ∧
    (fun s : String => if s = "20" then some (20 : ℝ) else none)
      (["./Rasterizer", "-r", "20"].getD 2 "") = some 20 ∧
    main (fun s => if s = "20" then some (20 : ℝ) else none) Real.cos Real.sin Real.tan
        ["./Rasterizer", "-r", "20"] [97, 27]
      = ⟨[], Termination.returned 0⟩ :=
  ⟨rfl, by simp, main_three_arguments _ ["./Rasterizer", "-r", "20"] 20 [97, 27] rfl (by simp)⟩

/-- Claim C15: in the interactive loop the key handling of an iteration is a
step on the working angle: key `'a'` (97) gives `angle + 10`, key `'d'` (100)
gives `angle - 10`, every other key leaves the angle as it is; an iteration
entered with a key other than 27 draws at the current angle, reads the next
key `k` and goes on from `key_step angle k`; and the loop stops exactly when
the key read is 27: it returns 0 after the first 27, and it does not return
while no 27 has been read. -/
theorem interactive_key_handling (angle : ℝ) :
    key_step angle 97 = angle + 10 ∧
    key_step angle 100 = angle - 10 ∧
    (∀ key : Int, key ≠ 97 → key ≠ 100 → key_step angle key = angle) ∧
    (∀ (k : Int) (keys : List Int) (key : Int) (frame_count : Nat), key ≠ 27 →
      render_loop Real.cos Real.sin Real.tan (k :: keys) key angle frame_count =
        ⟨draw_frame Real.cos Real.sin Real.tan angle :: Event.imshow
            :: Event.print frame_count
            :: (render_loop Real.cos Real.sin Real.tan keys k (key_step angle k)
                  (frame_count + 1)).events,
          (render_loop Real.cos Real.sin Real.tan keys k (key_step angle k)
            (frame_count + 1)).termination⟩) ∧
    (∀ (keys : List Int) (frame_count : Nat),
      render_loop Real.cos Real.sin Real.tan keys 27 angle frame_count
        = ⟨[], Termination.returned 0⟩) ∧
    (∀ (pre rest : List Int) (key : Int) (frame_count : Nat), (27 : Int) ∉ pre → key ≠ 27 →
      (render_loop Real.cos Real.sin Real.tan (pre ++ 27 :: rest) key angle
          frame_count).termination = Termination.returned 0 ∧
      frames_drawn (render_loop Real.cos Real.sin Real.tan (pre ++ 27 :: rest) key angle
          frame_count) = pre.length + 1) ∧
    (∀ (keys : List Int) (key : Int) (frame_count : Nat), (27 : Int) ∉ keys → key ≠ 27 →
      (render_loop Real.cos Real.sin Real.tan keys key angle frame_count).termination
        = Termination.waiting) ∧
    (∀ (stof : String → Option ℝ) (argv : List String) (keys : List Int), argv.length < 3 →
      main stof Real.cos Real.sin Real.tan argv keys
        = render_loop Real.cos Real.sin Real.tan keys 0 0 0) := by
  obtain ⟨h1, h2, h3⟩ := key_step_cases angle
  refine ⟨h1, h2, h3, ?_, ?_, ?_, ?_, ?_⟩
  · intro k keys key frame_count hkey
    exact render_loop_cons k keys key hkey angle frame_count
  · intro keys frame_count
    exact render_loop_escape keys angle frame_count
  · intro pre rest key frame_count hpre hkey
    exact render_loop_stops pre rest hpre key hkey angle frame_count
  · intro keys key frame_count hkeys hkey
    exact render_loop_waits keys hkeys key hkey angle frame_count
  · intro stof argv keys hargc
    exact main_interactive stof argv keys hargc

/-- Claim C10 (amended): for every fov, aspect ratio and `z`,
`get_projection_matrix` called with `zNear = zFar = z` does not fail: it
raises no error condition and returns a matrix. -/
theorem equal_planes_no_failure (fov aspect z : ℝ) :
    (∀ e : ErrorCondition, get_projection_matrix_call Real.tan fov aspect z z ≠ Except.error e) ∧
    ∃ m : Matrix4 ℝ, get_projection_matrix_call Real.tan fov aspect z z = Except.ok m := by
  constructor
  · intro e
    simp [get_projection_matrix_call]
  · exact ⟨_, rfl⟩

end CGBeginner
